import Mathlib

/-!
Shallow embedding of the batch-assembly and augmentation scheduler in
src/engine/data/dataloader.py (classes BaseCollateFunction and
BatchImageCollateFunction, function generate_scales).

Python floats are modelled as rationals, tensors as lists of rationals,
target dictionaries as records, and the in-place mutation of the shared
target dictionaries as sequential updates of a list that plays the role
of the caller-visible store.  Exceptions are modelled by an error field,
and the print notifications by an explicit event list.
-/

set_option maxRecDepth 4000

/-- One annotation record (the per-sample target dictionary): ordered box,
label and area sequences, the optional mixup-weight sequence and the
optional mask tensor. -/
structure Target where
  boxes : List (List ℚ)
  labels : List ℤ
  area : List ℚ
  mixup : Option (List ℚ)
  masks : Option (List ℚ)
  deriving DecidableEq

instance : Inhabited Target := ⟨⟨[], [], [], none, none⟩⟩

/-- The Python exception kinds that the collate path can raise.
NotImplementedError is a RuntimeError subclass in Python; only the
runtimeOom kind carries the CUDA out-of-memory message. -/
inductive PyErr where
  | runtimeOom
  | runtimeOther
  | notImplemented
  | keyError
  | indexError
  deriving DecidableEq

/-- The observable print notifications emitted by the collate object. -/
inductive Notif where
  | activating (epoch : ℤ)
  | deactivating (epoch : ℤ)
  | adjusting (epoch : ℤ) (prob : ℚ)
  | fullProb (epoch : ℤ) (prob : ℚ)
  | mixupClosed (epoch : ℤ)
  deriving DecidableEq

/-- Injection points for a simulated failure: the torch.cat stacking step,
the in-place pixel blend, or the k-th iteration of the target-merge loop. -/
inductive FaultSite where
  | stackSite
  | blendSite
  | mergeStep (k : ℕ)
  deriving DecidableEq

/-- The values drawn from the global random source during one collate call:
the Bernoulli draw of random.random(), the value of random.uniform(0.45, 0.55)
and the index picked by random.choice on the scale list. -/
structure Rng where
  rand : ℚ
  unif : ℚ
  choiceIdx : ℕ
  deriving DecidableEq

/-- The mutable attributes of a BatchImageCollateFunction instance. -/
structure CollateFn where
  base_size : ℤ
  scales : Option (List ℤ)
  stop_epoch : ℤ
  ema_restart_decay : ℚ
  mixup_prob : ℚ
  mixup_epochs : List ℤ
  gradual_mixup : Bool
  original_mixup_prob : ℚ
  data_vis : Bool
  print_info_flag : Bool
  warm_up_epochs : ℤ
  epochVal : Option ℤ
  deriving DecidableEq

/-- The epoch property: the stored epoch, or -1 when set_epoch was never called. -/
def CollateFn.epoch (s : CollateFn) : ℤ := s.epochVal.getD (-1)

/-- generate_scales from dataloader.py: int() on a nonnegative float is floor. -/
def generate_scales (base_size : ℕ) (base_size_repeat : ℕ) : List ℤ :=
  let scale_repeat : ℕ :=
    ((base_size : ℤ) - ⌊(base_size : ℚ) * 0.75 / 32⌋ * 32).toNat / 32
  let scales1 := (List.range scale_repeat).map
    (fun i : ℕ => ⌊(base_size : ℚ) * 0.75 / 32⌋ * 32 + (i : ℤ) * 32)
  let scales2 := scales1 ++ List.replicate base_size_repeat (base_size : ℤ)
  scales2 ++ (List.range scale_repeat).map
    (fun i : ℕ => ⌊(base_size : ℚ) * 1.25 / 32⌋ * 32 - (i : ℤ) * 32)

/-- Python round(x, 6): rounding to six decimal places. -/
def roundTo6 (q : ℚ) : ℚ := ((round (q * 1000000) : ℤ) : ℚ) / 1000000

/-- images.roll(shifts=1, dims=0): the predecessor row (i-1) mod N ends up at row i. -/
def rollOne {α : Type} (xs : List α) : List α :=
  match xs.getLast? with
  | none => []
  | some x => x :: xs.dropLast

/-- The in-place pixel blend images.mul_(beta).add_(rolled.mul_(1-beta)),
where rolled is the fresh copy produced by roll, so the right-hand side
reads the pre-blend pixel values. -/
def blendAll (beta : ℚ) (images : List (List ℚ)) : List (List ℚ) :=
  List.zipWith (fun img pairImg =>
    List.zipWith (fun x y => beta * x + (1 - beta) * y) img pairImg)
    images (rollOne images)

/-- One iteration of the target-merge loop.  shifted_targets[i] is an alias of
targets[(i-1) mod n], so every read goes through the current store; the four
dictionary assignments of the loop body are modelled as four store updates,
which also captures the n = 1 case where the pair is the target itself. -/
def mergeAt (beta : ℚ) (ts : List Target) (i : ℕ) : List Target :=
  let n := ts.length
  let j := (i + (n - 1)) % n
  let u1 := ts.set i { ts.getD i default with
    boxes := (ts.getD i default).boxes ++ (ts.getD j default).boxes }
  let u2 := u1.set i { u1.getD i default with
    labels := (u1.getD i default).labels ++ (u1.getD j default).labels }
  let u3 := u2.set i { u2.getD i default with
    area := (u2.getD i default).area ++ (u2.getD j default).area }
  u3.set i { u3.getD i default with
    mixup := some (List.replicate (u3.getD i default).boxes.length beta
      ++ List.replicate (u3.getD j default).boxes.length (1 - beta)) }

/-- The first k iterations of the merge loop (used to observe the store when a
fault interrupts the loop). -/
def mergeSteps (beta : ℚ) (ts : List Target) (ks : List ℕ) : List Target :=
  ks.foldl (mergeAt beta) ts

/-- The full merge loop, for i in range(len(targets)). -/
def mergeAll (beta : ℚ) (ts : List Target) : List Target :=
  mergeSteps beta ts (List.range ts.length)

/-- Result of one apply_mixup call: raised error (if any), the image buffer,
the caller-visible target store, the updated instance state and the emitted
notifications. -/
structure MixRun where
  err : Option PyErr
  images : List (List ℚ)
  targets : List Target
  st : CollateFn
  notifs : List Notif
  deriving DecidableEq

/-- apply_mixup from dataloader.py.  Reading mixup_epochs[-1] on an empty list
raises IndexError.  The closing notification fires whenever the current epoch
equals the last window boundary and the one-shot flag is still set.  The blend
and the merge run only when the Bernoulli draw succeeds and the epoch lies in
the half-open window. -/
def apply_mixup (fault : Option (FaultSite × PyErr)) (s : CollateFn) (rng : Rng)
    (images : List (List ℚ)) (targets : List Target) : MixRun :=
  match s.mixup_epochs.getLast? with
  | none => ⟨some PyErr.indexError, images, targets, s, []⟩
  | some lastEpoch =>
    let s1 := if s.epoch = lastEpoch ∧ s.print_info_flag = true then
        { s with print_info_flag := false } else s
    let notifs := if s.epoch = lastEpoch ∧ s.print_info_flag = true then
        [Notif.mixupClosed s.epoch] else []
    if rng.rand < s.mixup_prob ∧ s.mixup_epochs.headD 0 ≤ s.epoch ∧ s.epoch < lastEpoch then
      let beta := roundTo6 rng.unif
      match fault with
      | some (FaultSite.blendSite, e) => ⟨some e, images, targets, s1, notifs⟩
      | some (FaultSite.mergeStep k, e) =>
        if k < targets.length then
          ⟨some e, blendAll beta images, mergeSteps beta targets (List.range k), s1, notifs⟩
        else
          ⟨none, blendAll beta images, mergeAll beta targets, s1, notifs⟩
      | _ => ⟨none, blendAll beta images, mergeAll beta targets, s1, notifs⟩
    else ⟨none, images, targets, s1, notifs⟩

/-- BaseCollateFunction.set_epoch: store the epoch and print the boundary
notifications; the prints are unconditional on every call whose epoch equals
the first or last window boundary. -/
def baseSetEpoch (s : CollateFn) (epoch : ℤ) : CollateFn × List Notif :=
  let s1 := { s with epochVal := some epoch }
  if 2 ≤ s.mixup_epochs.length then
    if epoch = s.mixup_epochs.headD 0 then (s1, [Notif.activating epoch])
    else if epoch = s.mixup_epochs.getLastD 0 then (s1, [Notif.deactivating epoch])
    else (s1, [])
  else (s1, [])

/-- The gradual-mixup body of BatchImageCollateFunction.set_epoch. -/
def gradualAdjust (s : CollateFn) (epoch : ℤ) : CollateFn × List Notif :=
  if s.gradual_mixup = true ∧ 0 < s.mixup_prob then
    if 2 ≤ s.mixup_epochs.length ∧ s.mixup_epochs.headD 0 ≤ epoch
        ∧ epoch < s.mixup_epochs.getLastD 0 then
      let since := epoch - s.mixup_epochs.headD 0
      if since < s.warm_up_epochs then
        let adjusted := s.original_mixup_prob * (((since + 1 : ℤ) : ℚ) / (s.warm_up_epochs : ℚ))
        if s.mixup_prob = adjusted then (s, [])
        else ({ s with mixup_prob := adjusted }, [Notif.adjusting epoch adjusted])
      else
        if s.mixup_prob = s.original_mixup_prob then (s, [])
        else ({ s with mixup_prob := s.original_mixup_prob },
          [Notif.fullProb epoch s.original_mixup_prob])
    else (s, [])
  else (s, [])

/-- BatchImageCollateFunction.set_epoch: the base print logic, then the
gradual probability adjustment. -/
def set_epoch (s : CollateFn) (epoch : ℤ) : CollateFn × List Notif :=
  let b := baseSetEpoch s epoch
  let g := gradualAdjust b.1 epoch
  (g.1, b.2 ++ g.2)

/-- F.interpolate is an external tensor kernel whose numeric output is out of
scope (spec sections 1 and 6); no property here inspects resized pixels, so it
is modelled as preserving the pixel buffer, the chosen size driving only
control flow. -/
def interpolateTo (_sz : ℤ) (images : List (List ℚ)) : List (List ℚ) := images

/-- Reclaim bookkeeping of the except-handler: the handler catches
RuntimeError (runtimeOom, runtimeOther, notImplemented) and performs the
gc.collect plus empty_cache reclaim only when the message marks a CUDA
out-of-memory condition; every caught error is re-raised unchanged. -/
def oomCount (e : PyErr) : ℕ := if e = PyErr.runtimeOom then 1 else 0

/-- Result of one collate call: the returned value or raised error, the
post-call contents of the target dictionaries held by the caller (which the returned
target list aliases), the instance state, the notifications, and the two
reclaim counters (proactive pre-transition reclaim, on-failure reclaim). -/
structure CollateOut where
  result : Except PyErr (List (List ℚ) × List Target)
  callerTargets : List Target
  st : CollateFn
  notifs : List Notif
  proactiveReclaims : ℕ
  oomReclaims : ℕ

/-- BatchImageCollateFunction.__call__.  torch.cat of an empty item list
raises a plain RuntimeError; the mask branch tests only targets[0], updates
the masks of every target (KeyError at the first target without a mask key)
and then raises NotImplementedError. -/
def collate (fault : Option (FaultSite × PyErr)) (s : CollateFn) (rng : Rng)
    (items : List (List ℚ × Target)) : CollateOut :=
  let proactive : ℕ :=
    if 2 ≤ s.mixup_epochs.length ∧ s.epoch + 1 = s.mixup_epochs.headD 0 then 1 else 0
  match fault with
  | some (FaultSite.stackSite, e) =>
    ⟨Except.error e, items.map Prod.snd, s, [], proactive, oomCount e⟩
  | _ =>
    if items = [] then
      ⟨Except.error PyErr.runtimeOther, [], s, [], proactive, oomCount PyErr.runtimeOther⟩
    else
      let run := apply_mixup fault s rng (items.map Prod.fst) (items.map Prod.snd)
      match run.err with
      | some e => ⟨Except.error e, run.targets, run.st, run.notifs, proactive, oomCount e⟩
      | none =>
        match s.scales with
        | some sc =>
          if s.epoch < s.stop_epoch then
            if ((run.targets.headD default).masks).isSome = true then
              if run.targets.all (fun t => t.masks.isSome) = true then
                ⟨Except.error PyErr.notImplemented, run.targets, run.st, run.notifs,
                  proactive, oomCount PyErr.notImplemented⟩
              else
                ⟨Except.error PyErr.keyError, run.targets, run.st, run.notifs,
                  proactive, oomCount PyErr.keyError⟩
            else
              ⟨Except.ok (interpolateTo (sc.getD rng.choiceIdx 0) run.images, run.targets),
                run.targets, run.st, run.notifs, proactive, 0⟩
          else
            ⟨Except.ok (run.images, run.targets), run.targets, run.st, run.notifs, proactive, 0⟩
        | none =>
          ⟨Except.ok (run.images, run.targets), run.targets, run.st, run.notifs, proactive, 0⟩

/-! ### Concrete sample data used by the counterexamples and witnesses -/

/-- A target with one box, label 1, area 10. -/
def tA : Target := ⟨[[1, 0, 0, 0]], [1], [10], none, none⟩

/-- A target with one box, label 2, area 20. -/
def tB : Target := ⟨[[2, 0, 0, 0]], [2], [20], none, none⟩

/-- A target carrying a mask tensor. -/
def tMask : Target := ⟨[[3, 0, 0, 0]], [3], [30], none, some [1]⟩

/-! ### List helper lemmas -/

lemma headD_eq_getD {α : Type} (l : List α) (d : α) : l.headD d = l.getD 0 d := by
  cases l <;> rfl

lemma getD_zipWith {α β γ : Type} (f : α → β → γ) (as : List α) (bs : List β)
    (i : ℕ) (da : α) (db : β) (dc : γ) (h1 : i < as.length) (h2 : i < bs.length) :
    (List.zipWith f as bs).getD i dc = f (as.getD i da) (bs.getD i db) := by
  induction as generalizing bs i with
  | nil => simp at h1
  | cons a as ih =>
    cases bs with
    | nil => simp at h2
    | cons b bs =>
      cases i with
      | zero => rfl
      | succ i => exact ih bs i (Nat.lt_of_succ_lt_succ h1) (Nat.lt_of_succ_lt_succ h2)

lemma getD_set_ne {α : Type} (l : List α) (k i : ℕ) (v d : α) (hne : k ≠ i) :
    (l.set k v).getD i d = l.getD i d := by
  simp [List.getD_eq_getElem?_getD, List.getElem?_set_ne hne]

lemma getD_set_self {α : Type} (l : List α) (k : ℕ) (v d : α) (hk : k < l.length) :
    (l.set k v).getD k d = v := by
  simp [List.getD_eq_getElem?_getD, List.getElem?_set_eq_of_lt v hk]

lemma rollOne_length {α : Type} (xs : List α) : (rollOne xs).length = xs.length := by
  unfold rollOne
  cases h : xs.getLast? with
  | none => simp [List.getLast?_eq_none_iff.mp h]
  | some x =>
    have hne : xs ≠ [] := by
      intro hnil; rw [hnil] at h; simp at h
    have hpos : 0 < xs.length := List.length_pos.mpr hne
    simp [List.length_dropLast]
    omega

lemma rollOne_getD {α : Type} (xs : List α) (i : ℕ) (d : α) (h : i < xs.length) :
    (rollOne xs).getD i d = xs.getD ((i + (xs.length - 1)) % xs.length) d := by
  cases xs with
  | nil => simp at h
  | cons a as =>
    have hne : (a :: as) ≠ [] := by simp
    unfold rollOne
    rw [List.getLast?_eq_getLast_of_ne_nil hne]
    cases i with
    | zero =>
      have hlt : (a :: as).length - 1 < (a :: as).length := by simp
      have hmod : (0 + ((a :: as).length - 1)) % (a :: as).length = (a :: as).length - 1 := by
        rw [Nat.zero_add, Nat.mod_eq_of_lt hlt]
      rw [hmod]
      rw [List.getD_eq_getElem _ _ hlt]
      simp [List.getLast_eq_getElem]
    | succ i =>
      have hi : i < (a :: as).dropLast.length := by
        simp [List.length_dropLast] at h ⊢; omega
      have hilt : i < (a :: as).length := by
        simp at h ⊢; omega
      have hmod : (i + 1 + ((a :: as).length - 1)) % (a :: as).length = i := by
        have heq : i + 1 + ((a :: as).length - 1) = i + (a :: as).length := by
          simp; omega
        rw [heq, Nat.add_mod_right, Nat.mod_eq_of_lt hilt]
      rw [hmod]
      show ((a :: as).dropLast).getD i d = _
      rw [List.getD_eq_getElem _ _ hi, List.getD_eq_getElem _ _ hilt,
        List.getElem_dropLast]

/-! ### Merge loop lemmas -/

lemma length_mergeAt (beta : ℚ) (ts : List Target) (k : ℕ) :
    (mergeAt beta ts k).length = ts.length := by
  simp [mergeAt]

lemma length_mergeSteps (beta : ℚ) (ks : List ℕ) (ts : List Target) :
    (mergeSteps beta ts ks).length = ts.length := by
  induction ks generalizing ts with
  | nil => rfl
  | cons k ks ih =>
    show (mergeSteps beta (mergeAt beta ts k) ks).length = _
    rw [ih, length_mergeAt]

lemma length_mergeAll (beta : ℚ) (ts : List Target) :
    (mergeAll beta ts).length = ts.length := length_mergeSteps beta _ ts

/-- The closed form of the record written at index k by one merge iteration:
reads go through the current store, so when the pair index equals k (n = 1)
the already-extended box list is read back while building the weights. -/
def mergedTarget (beta : ℚ) (ts : List Target) (k : ℕ) : Target :=
  let n := ts.length
  let j := (k + (n - 1)) % n
  let cur := ts.getD k default
  let pair := ts.getD j default
  if j = k then
    { cur with
      boxes := cur.boxes ++ cur.boxes,
      labels := cur.labels ++ cur.labels,
      area := cur.area ++ cur.area,
      mixup := some (List.replicate (cur.boxes.length + cur.boxes.length) beta
        ++ List.replicate (cur.boxes.length + cur.boxes.length) (1 - beta)) }
  else
    { cur with
      boxes := cur.boxes ++ pair.boxes,
      labels := cur.labels ++ pair.labels,
      area := cur.area ++ pair.area,
      mixup := some (List.replicate (cur.boxes.length + pair.boxes.length) beta
        ++ List.replicate pair.boxes.length (1 - beta)) }

lemma mergeAt_oob (beta : ℚ) (ts : List Target) (k : ℕ) (hk : ts.length ≤ k) :
    mergeAt beta ts k = ts := by
  simp only [mergeAt, List.set_eq_of_length_le, List.length_set, hk]

lemma mergeAt_eq_set (beta : ℚ) (ts : List Target) (k : ℕ) (hk : k < ts.length) :
    mergeAt beta ts k = ts.set k (mergedTarget beta ts k) := by
  have hgd : ∀ (l : List Target) (v : Target), l.length = ts.length →
      (l.set k v).getD k default = v := by
    intro l v hl
    exact getD_set_self l k v default (by omega)
  by_cases hjk : (k + (ts.length - 1)) % ts.length = k
  · simp only [mergeAt, mergedTarget, hjk]
    simp only [hgd, List.length_set, List.set_set, if_pos]
    simp [List.length_append]
  · have hgne : ∀ (l : List Target) (v : Target),
        (l.set k v).getD ((k + (ts.length - 1)) % ts.length) default
          = l.getD ((k + (ts.length - 1)) % ts.length) default := by
      intro l v
      exact getD_set_ne l k _ v default (fun h => hjk h.symm)
    simp only [mergeAt, mergedTarget, if_neg hjk]
    simp only [hgd, hgne, List.length_set, List.set_set]
    simp [List.length_append]

lemma mergeAt_getD_ne (beta : ℚ) (ts : List Target) (k i : ℕ) (hne : k ≠ i) :
    (mergeAt beta ts k).getD i default = ts.getD i default := by
  by_cases hk : k < ts.length
  · rw [mergeAt_eq_set beta ts k hk, getD_set_ne _ _ _ _ _ hne]
  · rw [mergeAt_oob beta ts k (by omega)]

lemma mergedTarget_masks (beta : ℚ) (ts : List Target) (k : ℕ) :
    (mergedTarget beta ts k).masks = (ts.getD k default).masks := by
  simp only [mergedTarget]
  split <;> rfl

lemma mergeAt_masks (beta : ℚ) (ts : List Target) (k i : ℕ) :
    ((mergeAt beta ts k).getD i default).masks = (ts.getD i default).masks := by
  by_cases hk : k < ts.length
  · by_cases hki : k = i
    · subst hki
      rw [mergeAt_eq_set beta ts k hk, getD_set_self _ _ _ _ hk, mergedTarget_masks]
    · rw [mergeAt_getD_ne _ _ _ _ hki]
  · rw [mergeAt_oob beta ts k (by omega)]

lemma mergeAt_mixup_self (beta : ℚ) (ts : List Target) (k : ℕ) (hk : k < ts.length) :
    ((mergeAt beta ts k).getD k default).mixup.isSome = true := by
  rw [mergeAt_eq_set beta ts k hk, getD_set_self _ _ _ _ hk]
  simp only [mergedTarget]
  split <;> rfl

lemma mergeAt_mixup_isSome_pres (beta : ℚ) (ts : List Target) (k i : ℕ)
    (h : ((ts.getD i default).mixup).isSome = true) :
    (((mergeAt beta ts k).getD i default).mixup).isSome = true := by
  by_cases hki : k = i
  · subst hki
    by_cases hk : k < ts.length
    · exact mergeAt_mixup_self beta ts k hk
    · rw [mergeAt_oob beta ts k (by omega)]; exact h
  · rw [mergeAt_getD_ne _ _ _ _ hki]; exact h

lemma mergeSteps_masks (beta : ℚ) (ks : List ℕ) (ts : List Target) (i : ℕ) :
    ((mergeSteps beta ts ks).getD i default).masks = (ts.getD i default).masks := by
  induction ks generalizing ts with
  | nil => rfl
  | cons k ks ih =>
    show ((mergeSteps beta (mergeAt beta ts k) ks).getD i default).masks = _
    rw [ih, mergeAt_masks]

lemma mergeSteps_mixup_isSome_pres (beta : ℚ) (ks : List ℕ) (ts : List Target) (i : ℕ)
    (h : ((ts.getD i default).mixup).isSome = true) :
    (((mergeSteps beta ts ks).getD i default).mixup).isSome = true := by
  induction ks generalizing ts with
  | nil => exact h
  | cons k ks ih =>
    show (((mergeSteps beta (mergeAt beta ts k) ks).getD i default).mixup).isSome = true
    exact ih (mergeAt beta ts k) (mergeAt_mixup_isSome_pres beta ts k i h)

lemma mergeSteps_mixup_isSome (beta : ℚ) (ks : List ℕ) (ts : List Target) (i : ℕ)
    (hmem : i ∈ ks) (hi : i < ts.length) :
    (((mergeSteps beta ts ks).getD i default).mixup).isSome = true := by
  induction ks generalizing ts with
  | nil => simp at hmem
  | cons k ks ih =>
    show (((mergeSteps beta (mergeAt beta ts k) ks).getD i default).mixup).isSome = true
    rcases List.mem_cons.mp hmem with hik | hmem2
    · subst hik
      exact mergeSteps_mixup_isSome_pres beta ks (mergeAt beta ts i) i
        (mergeAt_mixup_self beta ts i hi)
    · exact ih (mergeAt beta ts k) hmem2 (by rw [length_mergeAt]; exact hi)

lemma mergeAll_mixup_isSome (beta : ℚ) (ts : List Target) (i : ℕ) (hi : i < ts.length) :
    (((mergeAll beta ts).getD i default).mixup).isSome = true :=
  mergeSteps_mixup_isSome beta _ ts i (List.mem_range.mpr hi) hi

/-! ### Floor arithmetic helpers for generate_scales -/

lemma floor075 (b : ℕ) : ⌊(b : ℚ) * 0.75 / 32⌋ = (3 * (b : ℤ)) / 128 := by
  have h : (b : ℚ) * 0.75 / 32 = ((3 * (b : ℤ) : ℤ) : ℚ) / ((128 : ℕ) : ℚ) := by
    push_cast; ring
  rw [h, Rat.floor_intCast_div_natCast]; norm_num

lemma floor125 (b : ℕ) : ⌊(b : ℚ) * 1.25 / 32⌋ = (5 * (b : ℤ)) / 128 := by
  have h : (b : ℚ) * 1.25 / 32 = ((5 * (b : ℤ) : ℤ) : ℚ) / ((128 : ℕ) : ℚ) := by
    push_cast; ring
  rw [h, Rat.floor_intCast_div_natCast]; norm_num

/-! ### Claim C6 -/

/-- C6: generate_scales is pure and deterministic and returns, in order, the
ascending values low, low+32, ... (step of them, where low is
floor(base*0.75/32)*32 and step is (base - low) integer-divided by 32), then
base repeated repeatCount times, then step descending values starting at
floor(base*1.25/32)*32 and decreasing by 32; in particular
generate_scales 640 4 is exactly the fourteen-element list of the claim. -/
theorem c6_generate_scales (base r : ℕ) :
    generate_scales 640 4 = [480, 512, 544, 576, 608, 640, 640, 640, 640,
      800, 768, 736, 704, 672]
    ∧ generate_scales base r =
        ((List.range (((base : ℤ) - ⌊(base : ℚ) * 0.75 / 32⌋ * 32).toNat / 32)).map
          (fun i : ℕ => ⌊(base : ℚ) * 0.75 / 32⌋ * 32 + (i : ℤ) * 32))
        ++ List.replicate r (base : ℤ)
        ++ ((List.range (((base : ℤ) - ⌊(base : ℚ) * 0.75 / 32⌋ * 32).toNat / 32)).map
          (fun i : ℕ => ⌊(base : ℚ) * 1.25 / 32⌋ * 32 - (i : ℤ) * 32)) := by
  constructor
  · simp only [generate_scales, floor075, floor125]
    decide
  · simp [generate_scales]

/-! ### Claim C1 -/

/-- C1: the claim predicts that merged target i holds its own original
sequences followed by only the original sequences of predecessor
(i-1) mod N, with weight sequence beta repeated k_i times then (1-beta)
repeated k_pair times (same combined length); the code instead reads the
already-merged predecessor record and measures the weight runs after the
concatenation.  At beta = 12/25: for N = 1 with one box the weight list is
[beta, beta, 1-beta, 1-beta] (length 4, claim predicts [beta, 1-beta]); for
N = 2 the boxes of the second target become [B, A, B] (claim predicts [B, A]). -/
theorem c1_mixup_merge_weights_bug :
    mergeAll (12/25) [tA] = [⟨[[1,0,0,0], [1,0,0,0]], [1,1], [10,10],
      some [12/25, 12/25, 13/25, 13/25], none⟩]
    ∧ ((mergeAll (12/25) [tA]).getD 0 default).mixup ≠ some [12/25, 13/25]
    ∧ ((mergeAll (12/25) [tA, tB]).getD 1 default).boxes
        = [[2,0,0,0], [1,0,0,0], [2,0,0,0]]
    ∧ ((mergeAll (12/25) [tA, tB]).getD 1 default).boxes ≠ [[2,0,0,0], [1,0,0,0]] := by
  refine ⟨?_, ?_, ?_, ?_⟩
  · norm_num [mergeAll, mergeSteps, mergeAt, List.range_succ, tA, List.replicate_succ]
  · norm_num [mergeAll, mergeSteps, mergeAt, List.range_succ, tA, List.replicate_succ]
  · norm_num [mergeAll, mergeSteps, mergeAt, List.range_succ, tA, tB, List.replicate_succ]
  · norm_num [mergeAll, mergeSteps, mergeAt, List.range_succ, tA, tB, List.replicate_succ]

/-! ### set_epoch lemmas -/

lemma baseSetEpoch_fst (s : CollateFn) (e : ℤ) :
    (baseSetEpoch s e).1 = { s with epochVal := some e } := by
  simp only [baseSetEpoch]
  split_ifs <;> rfl

lemma baseSetEpoch_snd (s : CollateFn) (e : ℤ) :
    (baseSetEpoch s e).2 =
      if 2 ≤ s.mixup_epochs.length then
        (if e = s.mixup_epochs.headD 0 then [Notif.activating e]
         else if e = s.mixup_epochs.getLastD 0 then [Notif.deactivating e]
         else [])
      else [] := by
  simp only [baseSetEpoch]
  split_ifs <;> rfl

lemma epochVal_eta (s : CollateFn) (e : ℤ) (h : s.epochVal = some e) :
    { s with epochVal := some e } = s := by
  cases s
  simp only at h
  rw [h]

lemma gradualAdjust_fields (s : CollateFn) (e : ℤ) :
    ((gradualAdjust s e).1).mixup_epochs = s.mixup_epochs
    ∧ ((gradualAdjust s e).1).gradual_mixup = s.gradual_mixup
    ∧ ((gradualAdjust s e).1).original_mixup_prob = s.original_mixup_prob
    ∧ ((gradualAdjust s e).1).warm_up_epochs = s.warm_up_epochs
    ∧ ((gradualAdjust s e).1).epochVal = s.epochVal
    ∧ ((gradualAdjust s e).1).print_info_flag = s.print_info_flag := by
  simp only [gradualAdjust]
  split_ifs <;> simp

lemma gradualAdjust_prob (s : CollateFn) (e : ℤ)
    (hg : s.gradual_mixup = true) (hp : 0 < s.mixup_prob)
    (hlen : 2 ≤ s.mixup_epochs.length)
    (h1 : s.mixup_epochs.headD 0 ≤ e) (h2 : e < s.mixup_epochs.getLastD 0) :
    ((gradualAdjust s e).1).mixup_prob =
      if e - s.mixup_epochs.headD 0 < s.warm_up_epochs then
        s.original_mixup_prob
          * (((e - s.mixup_epochs.headD 0 + 1 : ℤ) : ℚ) / (s.warm_up_epochs : ℚ))
      else s.original_mixup_prob := by
  simp only [gradualAdjust, if_pos (And.intro hg hp), if_pos (And.intro hlen (And.intro h1 h2))]
  by_cases hwarm : e - s.mixup_epochs.headD 0 < s.warm_up_epochs
  · rw [if_pos hwarm, if_pos hwarm]
    by_cases heq : s.mixup_prob =
        s.original_mixup_prob
          * (((e - s.mixup_epochs.headD 0 + 1 : ℤ) : ℚ) / (s.warm_up_epochs : ℚ))
    · rw [if_pos heq]; exact heq
    · rw [if_neg heq]
  · rw [if_neg hwarm, if_neg hwarm]
    by_cases heq : s.mixup_prob = s.original_mixup_prob
    · rw [if_pos heq]; exact heq
    · rw [if_neg heq]

lemma gradualAdjust_idem (s : CollateFn) (e : ℤ) :
    gradualAdjust ((gradualAdjust s e).1) e = (((gradualAdjust s e).1), ([] : List Notif)) := by
  by_cases hg : s.gradual_mixup = true ∧ 0 < s.mixup_prob
  · by_cases hwin : 2 ≤ s.mixup_epochs.length ∧ s.mixup_epochs.headD 0 ≤ e
        ∧ e < s.mixup_epochs.getLastD 0
    · by_cases hwarm : e - s.mixup_epochs.headD 0 < s.warm_up_epochs
      · by_cases heq : s.mixup_prob =
            s.original_mixup_prob
              * (((e - s.mixup_epochs.headD 0 + 1 : ℤ) : ℚ) / (s.warm_up_epochs : ℚ))
        · have h1 : gradualAdjust s e = (s, []) := by
            simp only [gradualAdjust, if_pos hg, if_pos hwin, if_pos hwarm, if_pos heq]
          rw [h1]
          exact h1
        · have h1 : gradualAdjust s e =
              ({ s with mixup_prob := s.original_mixup_prob
                * (((e - s.mixup_epochs.headD 0 + 1 : ℤ) : ℚ) / (s.warm_up_epochs : ℚ)) },
               [Notif.adjusting e (s.original_mixup_prob
                * (((e - s.mixup_epochs.headD 0 + 1 : ℤ) : ℚ) / (s.warm_up_epochs : ℚ)))]) := by
            simp only [gradualAdjust, if_pos hg, if_pos hwin, if_pos hwarm, if_neg heq]
          rw [h1]
          by_cases hp2 : (0 : ℚ) < s.original_mixup_prob
              * (((e - s.mixup_epochs.headD 0 + 1 : ℤ) : ℚ) / (s.warm_up_epochs : ℚ))
          · simp only [gradualAdjust]
            rw [if_pos (And.intro hg.1 hp2), if_pos hwin, if_pos hwarm]
            simp
          · have hneg : ¬ (({ s with mixup_prob := s.original_mixup_prob
                * (((e - s.mixup_epochs.headD 0 + 1 : ℤ) : ℚ)
                  / (s.warm_up_epochs : ℚ)) } : CollateFn).gradual_mixup = true
                ∧ (0 : ℚ) < ({ s with mixup_prob := s.original_mixup_prob
                * (((e - s.mixup_epochs.headD 0 + 1 : ℤ) : ℚ)
                  / (s.warm_up_epochs : ℚ)) } : CollateFn).mixup_prob) := by
              intro hcontra
              exact hp2 hcontra.2
            simp only [gradualAdjust, if_neg hneg]
      · by_cases heq : s.mixup_prob = s.original_mixup_prob
        · have h1 : gradualAdjust s e = (s, []) := by
            simp only [gradualAdjust, if_pos hg, if_pos hwin, if_neg hwarm, if_pos heq]
          rw [h1]
          exact h1
        · have h1 : gradualAdjust s e =
              ({ s with mixup_prob := s.original_mixup_prob },
               [Notif.fullProb e s.original_mixup_prob]) := by
            simp only [gradualAdjust, if_pos hg, if_pos hwin, if_neg hwarm, if_neg heq]
          rw [h1]
          by_cases hp2 : (0 : ℚ) < s.original_mixup_prob
          · simp only [gradualAdjust]
            rw [if_pos (And.intro hg.1 hp2), if_pos hwin, if_neg hwarm]
            simp
          · have hneg : ¬ (({ s with mixup_prob := s.original_mixup_prob } :
                CollateFn).gradual_mixup = true
                ∧ (0 : ℚ) < ({ s with mixup_prob := s.original_mixup_prob } :
                  CollateFn).mixup_prob) := by
              intro hcontra
              exact hp2 hcontra.2
            simp only [gradualAdjust, if_neg hneg]
    · have h1 : gradualAdjust s e = (s, []) := by
        simp only [gradualAdjust, if_pos hg, if_neg hwin]
      rw [h1]
      exact h1
  · have h1 : gradualAdjust s e = (s, []) := by
      simp only [gradualAdjust, if_neg hg]
    rw [h1]
    exact h1

/-! ### Claim C3 -/

/-- A scheduler configured with window [10, 20], probability 1/2 and gradual
warm-up, before any epoch notification. -/
def s3 : CollateFn :=
  { base_size := 640, scales := none, stop_epoch := 100,
    ema_restart_decay := 9999/10000, mixup_prob := 1/2, mixup_epochs := [10, 20],
    gradual_mixup := true, original_mixup_prob := 1/2, data_vis := false,
    print_info_flag := true, warm_up_epochs := 3, epochVal := none }

/-- C3 counterexample: calling set_epoch twice with the same boundary epoch 10
emits the entering-window notification on both calls, because the base-class
print is unconditional; so a second call with the same epoch does emit a
duplicate phase-entry notification, refuting the claim. -/
theorem c3_counterexample :
    Notif.activating 10 ∈ (set_epoch s3 10).2
    ∧ Notif.activating 10 ∈ (set_epoch (set_epoch s3 10).1 10).2 := by
  constructor
  · show Notif.activating 10 ∈ (baseSetEpoch s3 10).2 ++ (gradualAdjust (baseSetEpoch s3 10).1 10).2
    apply List.mem_append_left
    rw [baseSetEpoch_snd]
    norm_num [s3]
  · show Notif.activating 10 ∈ (baseSetEpoch (set_epoch s3 10).1 10).2
      ++ (gradualAdjust (baseSetEpoch (set_epoch s3 10).1 10).1 10).2
    apply List.mem_append_left
    rw [baseSetEpoch_snd]
    have hepochs : ((set_epoch s3 10).1).mixup_epochs = s3.mixup_epochs := by
      show ((gradualAdjust (baseSetEpoch s3 10).1 10).1).mixup_epochs = _
      rw [baseSetEpoch_fst]
      exact (gradualAdjust_fields _ 10).1
    rw [hepochs]
    norm_num [s3]

/-- C3 amended: a second set_epoch call with the same epoch leaves the
scheduler state unchanged and emits no probability-adjustment notification,
but it re-emits the boundary phase-entry notification whenever the epoch
equals the first or last window boundary (instead of emitting it exactly once
per boundary crossing). -/
theorem c3_set_epoch_idempotent_amended (s : CollateFn) (e : ℤ) :
    (set_epoch (set_epoch s e).1 e).1 = (set_epoch s e).1
    ∧ (set_epoch (set_epoch s e).1 e).2 =
        (if 2 ≤ s.mixup_epochs.length then
          (if e = s.mixup_epochs.headD 0 then [Notif.activating e]
           else if e = s.mixup_epochs.getLastD 0 then [Notif.deactivating e]
           else [])
         else []) := by
  have hs1 : (set_epoch s e).1 = (gradualAdjust { s with epochVal := some e } e).1 := by
    show (gradualAdjust (baseSetEpoch s e).1 e).1 = _
    rw [baseSetEpoch_fst]
  have hfields := gradualAdjust_fields { s with epochVal := some e } e
  have hepochs : ((set_epoch s e).1).mixup_epochs = s.mixup_epochs := by
    rw [hs1]; exact hfields.1
  have hepoch : ((set_epoch s e).1).epochVal = some e := by
    rw [hs1]; exact hfields.2.2.2.2.1
  have hbase2 : (baseSetEpoch (set_epoch s e).1 e).1 = (set_epoch s e).1 := by
    rw [baseSetEpoch_fst]
    exact epochVal_eta _ _ hepoch
  have hidem : gradualAdjust ((set_epoch s e).1) e = (((set_epoch s e).1), []) := by
    rw [hs1]
    exact gradualAdjust_idem _ e
  constructor
  · show (gradualAdjust (baseSetEpoch (set_epoch s e).1 e).1 e).1 = (set_epoch s e).1
    rw [hbase2, hidem]
  · show (baseSetEpoch (set_epoch s e).1 e).2
        ++ (gradualAdjust (baseSetEpoch (set_epoch s e).1 e).1 e).2 = _
    rw [hbase2, hidem, baseSetEpoch_snd, hepochs]
    simp

/-! ### Claim C5 -/

lemma gradualAdjust_no_window (s : CollateFn) (e : ℤ)
    (hlen : s.mixup_epochs.length < 2) : gradualAdjust s e = (s, []) := by
  by_cases hg : s.gradual_mixup = true ∧ 0 < s.mixup_prob
  · have hwin : ¬ (2 ≤ s.mixup_epochs.length ∧ s.mixup_epochs.headD 0 ≤ e
        ∧ e < s.mixup_epochs.getLastD 0) := by
      intro hcontra
      omega
    simp only [gradualAdjust, if_pos hg, if_neg hwin]
  · simp only [gradualAdjust, if_neg hg]

/-- The s3 configuration with an empty mixup window. -/
def s5e : CollateFn :=
  { base_size := 640, scales := none, stop_epoch := 100,
    ema_restart_decay := 9999/10000, mixup_prob := 0, mixup_epochs := [],
    gradual_mixup := true, original_mixup_prob := 0, data_vis := false,
    print_info_flag := true, warm_up_epochs := 3, epochVal := some 0 }

/-- C5 counterexample: with an empty mixup_epochs list the claim predicts that
every collate call still succeeds and returns the batch unchanged, but the
unguarded read of mixup_epochs[-1] at the top of apply_mixup raises IndexError,
so collate raises instead of returning a batch. -/
theorem c5_counterexample :
    (collate none s5e ⟨0, 1/2, 0⟩ [([1], tA)]).result = Except.error PyErr.indexError := rfl

/-- C5 amended: with fewer than 2 boundary points set_epoch only stores the
epoch and emits nothing; with exactly one boundary point apply_mixup succeeds
and returns the batch unchanged (the window is empty); but with zero boundary
points apply_mixup raises IndexError instead of succeeding. -/
theorem c5_disabled_window_amended (s : CollateFn) (e b : ℤ) (rng : Rng)
    (images : List (List ℚ)) (targets : List Target) :
    (s.mixup_epochs.length < 2 → set_epoch s e = ({ s with epochVal := some e }, []))
    ∧ (s.mixup_epochs = [b] →
        (apply_mixup none s rng images targets).err = none
        ∧ (apply_mixup none s rng images targets).images = images
        ∧ (apply_mixup none s rng images targets).targets = targets)
    ∧ (s.mixup_epochs = [] →
        (apply_mixup none s rng images targets).err = some PyErr.indexError) := by
  refine ⟨?_, ?_, ?_⟩
  · intro hlen
    show ((gradualAdjust (baseSetEpoch s e).1 e).1,
      (baseSetEpoch s e).2 ++ (gradualAdjust (baseSetEpoch s e).1 e).2) = _
    rw [baseSetEpoch_fst, baseSetEpoch_snd,
      gradualAdjust_no_window _ e (by simpa using hlen),
      if_neg (by omega : ¬ 2 ≤ s.mixup_epochs.length)]
    rfl
  · intro hb
    have hguard : ¬ (rng.rand < s.mixup_prob ∧ ([b] : List ℤ).headD 0 ≤ s.epoch
        ∧ s.epoch < b) := by
      intro hcontra
      simp only [List.headD_cons] at hcontra
      omega
    simp only [apply_mixup, hb, List.getLast?_singleton, if_neg hguard]
    exact ⟨trivial, trivial, trivial⟩
  · intro hb
    simp only [apply_mixup, hb, List.getLast?_nil]

/-! ### Claim C7 -/

lemma set_epoch_prob (s : CollateFn) (e : ℤ)
    (hg : s.gradual_mixup = true) (hp : 0 < s.mixup_prob)
    (hlen : 2 ≤ s.mixup_epochs.length)
    (h1 : s.mixup_epochs.headD 0 ≤ e) (h2 : e < s.mixup_epochs.getLastD 0) :
    ((set_epoch s e).1).mixup_prob =
      if e - s.mixup_epochs.headD 0 < s.warm_up_epochs then
        s.original_mixup_prob
          * (((e - s.mixup_epochs.headD 0 + 1 : ℤ) : ℚ) / (s.warm_up_epochs : ℚ))
      else s.original_mixup_prob := by
  have hs1 : (set_epoch s e).1 = (gradualAdjust { s with epochVal := some e } e).1 := by
    show (gradualAdjust (baseSetEpoch s e).1 e).1 = _
    rw [baseSetEpoch_fst]
  rw [hs1]
  exact gradualAdjust_prob { s with epochVal := some e } e hg hp hlen h1 h2

/-- C7: with gradual mixup active and warm-up length 3, advancing to an epoch
e inside the window [start, end) sets the effective probability to
original * (e - start + 1) / 3 during warm-up (start ≤ e < start + 3) and to
exactly the original probability from start + 3 up to the end of the window. -/
theorem c7_warmup_probability (s : CollateFn) (e : ℤ)
    (hg : s.gradual_mixup = true) (hp : 0 < s.mixup_prob)
    (hw : s.warm_up_epochs = 3)
    (hlen : 2 ≤ s.mixup_epochs.length)
    (h1 : s.mixup_epochs.headD 0 ≤ e) (h2 : e < s.mixup_epochs.getLastD 0) :
    ((set_epoch s e).1).mixup_prob =
      if e - s.mixup_epochs.headD 0 < 3 then
        s.original_mixup_prob * (((e - s.mixup_epochs.headD 0 + 1 : ℤ) : ℚ) / 3)
      else s.original_mixup_prob := by
  rw [set_epoch_prob s e hg hp hlen h1 h2, hw]
  norm_num

/-- The s3 configuration, used as a concrete witness input for C7. -/
def s7 : CollateFn :=
  { base_size := 640, scales := none, stop_epoch := 100,
    ema_restart_decay := 9999/10000, mixup_prob := 1/2, mixup_epochs := [10, 20],
    gradual_mixup := true, original_mixup_prob := 1/2, data_vis := false,
    print_info_flag := true, warm_up_epochs := 3, epochVal := none }

/-- C7 witness: for window [10, 20] and original probability 1/2, advancing to
epoch 10 yields effective probability 1/6. -/
theorem c7_warmup_probability_witness : ((set_epoch s7 10).1).mixup_prob = 1/6 := by
  have h := c7_warmup_probability s7 10 rfl (by norm_num : (0:ℚ) < 1/2) rfl
    (by norm_num [s7]) (by norm_num [s7]) (by norm_num [s7])
  rw [h]
  norm_num [s7]

/-! ### apply_mixup characterizations -/

lemma apply_mixup_skip (s : CollateFn) (rng : Rng) (images : List (List ℚ))
    (targets : List Target) (lastE : ℤ)
    (hlast : s.mixup_epochs.getLast? = some lastE)
    (hcond : ¬ (rng.rand < s.mixup_prob ∧ s.mixup_epochs.headD 0 ≤ s.epoch
      ∧ s.epoch < lastE)) :
    (apply_mixup none s rng images targets).err = none
    ∧ (apply_mixup none s rng images targets).images = images
    ∧ (apply_mixup none s rng images targets).targets = targets := by
  simp only [apply_mixup, hlast, if_neg hcond]
  simp

lemma apply_mixup_apply (s : CollateFn) (rng : Rng) (images : List (List ℚ))
    (targets : List Target) (lastE : ℤ)
    (hlast : s.mixup_epochs.getLast? = some lastE)
    (hr : rng.rand < s.mixup_prob)
    (h1 : s.mixup_epochs.headD 0 ≤ s.epoch) (h2 : s.epoch < lastE) :
    (apply_mixup none s rng images targets).err = none
    ∧ (apply_mixup none s rng images targets).images
        = blendAll (roundTo6 rng.unif) images
    ∧ (apply_mixup none s rng images targets).targets
        = mergeAll (roundTo6 rng.unif) targets := by
  simp only [apply_mixup, hlast, if_pos (And.intro hr (And.intro h1 h2))]
  simp

lemma apply_mixup_fault_merge (s : CollateFn) (rng : Rng) (images : List (List ℚ))
    (targets : List Target) (lastE : ℤ) (k : ℕ) (err : PyErr)
    (hlast : s.mixup_epochs.getLast? = some lastE)
    (hr : rng.rand < s.mixup_prob)
    (h1 : s.mixup_epochs.headD 0 ≤ s.epoch) (h2 : s.epoch < lastE)
    (hk : k < targets.length) :
    (apply_mixup (some (FaultSite.mergeStep k, err)) s rng images targets).err = some err
    ∧ (apply_mixup (some (FaultSite.mergeStep k, err)) s rng images targets).targets
        = mergeSteps (roundTo6 rng.unif) targets (List.range k) := by
  simp only [apply_mixup, hlast, if_pos (And.intro hr (And.intro h1 h2)), if_pos hk]
  simp

/-! ### Claim C8 -/

/-- C8: whenever the phase is Inactive (epoch before the window start or at or
past the window end) or the Bernoulli draw fails (the drawn value is not below
the effective probability), apply_mixup raises nothing and returns the image
batch and every target exactly unchanged, so no mixup-weight field is added;
in particular this holds at every epoch at or past the window end. -/
theorem c8_inactive_unchanged (s : CollateFn) (rng : Rng) (images : List (List ℚ))
    (targets : List Target) (lastE : ℤ)
    (hlast : s.mixup_epochs.getLast? = some lastE)
    (hcond : (s.epoch < s.mixup_epochs.headD 0 ∨ lastE ≤ s.epoch)
      ∨ ¬ rng.rand < s.mixup_prob) :
    (apply_mixup none s rng images targets).err = none
    ∧ (apply_mixup none s rng images targets).images = images
    ∧ (apply_mixup none s rng images targets).targets = targets := by
  apply apply_mixup_skip s rng images targets lastE hlast
  intro hcontra
  rcases hcond with hphase | hdraw
  · rcases hphase with hlt | hge
    · exact absurd hcontra.2.1 (not_le.mpr hlt)
    · exact absurd hcontra.2.2 (not_lt.mpr hge)
  · exact hdraw hcontra.1

/-- The s3 configuration advanced past the window end (epoch 25, window
[10, 20]). -/
def s8 : CollateFn :=
  { base_size := 640, scales := none, stop_epoch := 100,
    ema_restart_decay := 9999/10000, mixup_prob := 1/2, mixup_epochs := [10, 20],
    gradual_mixup := true, original_mixup_prob := 1/2, data_vis := false,
    print_info_flag := true, warm_up_epochs := 3, epochVal := some 25 }

/-- C8 witness: at epoch 25, past the window end 20, a concrete batch passes
through apply_mixup unchanged. -/
theorem c8_inactive_unchanged_witness :
    (apply_mixup none s8 ⟨0, 1/2, 0⟩ [[1]] [tA]).err = none
    ∧ (apply_mixup none s8 ⟨0, 1/2, 0⟩ [[1]] [tA]).images = [[1]]
    ∧ (apply_mixup none s8 ⟨0, 1/2, 0⟩ [[1]] [tA]).targets = [tA] :=
  c8_inactive_unchanged s8 ⟨0, 1/2, 0⟩ [[1]] [tA] 20 rfl
    (Or.inl (Or.inr (by decide)))

/-! ### Claim C9 -/

lemma round_monotone (a b : ℚ) (h : a ≤ b) : round a ≤ round b := by
  rw [round_eq, round_eq]
  exact Int.floor_mono (by linarith)

lemma roundTo6_bounds (q : ℚ) (h1 : 9/20 ≤ q) (h2 : q ≤ 11/20) :
    9/20 ≤ roundTo6 q ∧ roundTo6 q ≤ 11/20 := by
  have hlo : (450000 : ℤ) ≤ round (q * 1000000) := by
    have hle : ((9:ℚ)/20) * 1000000 ≤ q * 1000000 := by linarith
    have hc : round (((9:ℚ)/20) * 1000000) = (450000 : ℤ) := by
      have hco : ((9:ℚ)/20) * 1000000 = ((450000 : ℤ) : ℚ) := by norm_num
      rw [hco, round_intCast]
    calc (450000 : ℤ) = round (((9:ℚ)/20) * 1000000) := hc.symm
      _ ≤ round (q * 1000000) := round_monotone _ _ hle
  have hhi : round (q * 1000000) ≤ (550000 : ℤ) := by
    have hle : q * 1000000 ≤ ((11:ℚ)/20) * 1000000 := by linarith
    have hc : round (((11:ℚ)/20) * 1000000) = (550000 : ℤ) := by
      have hco : ((11:ℚ)/20) * 1000000 = ((550000 : ℤ) : ℚ) := by norm_num
      rw [hco, round_intCast]
    calc round (q * 1000000) ≤ round (((11:ℚ)/20) * 1000000) := round_monotone _ _ hle
      _ = (550000 : ℤ) := hc
  have hloq : ((450000 : ℤ) : ℚ) ≤ ((round (q * 1000000) : ℤ) : ℚ) := by exact_mod_cast hlo
  have hhiq : ((round (q * 1000000) : ℤ) : ℚ) ≤ ((550000 : ℤ) : ℚ) := by exact_mod_cast hhi
  constructor
  · rw [roundTo6, le_div_iff₀ (by norm_num : (0:ℚ) < 1000000)]
    push_cast at hloq ⊢
    linarith
  · rw [roundTo6, div_le_iff₀ (by norm_num : (0:ℚ) < 1000000)]
    push_cast at hhiq ⊢
    linarith

lemma blendAll_getD_pixel (beta : ℚ) (images : List (List ℚ)) (sz : ℕ)
    (hsz : ∀ img ∈ images, img.length = sz)
    (i p : ℕ) (hi : i < images.length) (hp : p < sz) :
    ((blendAll beta images).getD i []).getD p 0
      = beta * ((images.getD i []).getD p 0)
        + (1 - beta)
          * ((images.getD ((i + (images.length - 1)) % images.length) []).getD p 0) := by
  have hroll : i < (rollOne images).length := by rw [rollOne_length]; exact hi
  have houter : (blendAll beta images).getD i []
      = List.zipWith (fun x y => beta * x + (1 - beta) * y)
          (images.getD i []) ((rollOne images).getD i []) := by
    exact getD_zipWith _ images (rollOne images) i [] [] [] hi hroll
  have hj : (i + (images.length - 1)) % images.length < images.length :=
    Nat.mod_lt _ (by omega)
  have hmem1 : images.getD i [] ∈ images := by
    rw [List.getD_eq_getElem _ _ hi]
    exact List.getElem_mem hi
  have hmem2 : images.getD ((i + (images.length - 1)) % images.length) [] ∈ images := by
    rw [List.getD_eq_getElem _ _ hj]
    exact List.getElem_mem hj
  rw [houter, rollOne_getD _ _ _ hi]
  exact getD_zipWith _ _ _ p 0 0 0 (by rw [hsz _ hmem1]; exact hp)
    (by rw [hsz _ hmem2]; exact hp)

/-- C9: when mixup applies, a single blend ratio beta is used, obtained from
the uniform [0.45, 0.55] draw rounded to six decimal places (so beta itself
lies in [0.45, 0.55]), sample i is paired with its predecessor
(i - 1) mod N (written below as (i + N - 1) mod N; for N = 1 a sample pairs
with itself), and every output pixel equals
beta * image[i] + (1 - beta) * image[(i - 1) mod N] computed from the
pre-blend pixel values of both samples. -/
theorem c9_blend_pixels (s : CollateFn) (rng : Rng) (images : List (List ℚ))
    (targets : List Target) (lastE : ℤ) (sz : ℕ)
    (hlast : s.mixup_epochs.getLast? = some lastE)
    (hr : rng.rand < s.mixup_prob)
    (h1 : s.mixup_epochs.headD 0 ≤ s.epoch) (h2 : s.epoch < lastE)
    (hu1 : 9/20 ≤ rng.unif) (hu2 : rng.unif ≤ 11/20)
    (hsz : ∀ img ∈ images, img.length = sz) :
    (9/20 ≤ roundTo6 rng.unif ∧ roundTo6 rng.unif ≤ 11/20)
    ∧ (apply_mixup none s rng images targets).err = none
    ∧ (apply_mixup none s rng images targets).images = blendAll (roundTo6 rng.unif) images
    ∧ ∀ i p : ℕ, i < images.length → p < sz →
        (((apply_mixup none s rng images targets).images.getD i []).getD p 0
          = roundTo6 rng.unif * ((images.getD i []).getD p 0)
            + (1 - roundTo6 rng.unif)
              * ((images.getD ((i + (images.length - 1)) % images.length) []).getD p 0)) := by
  obtain ⟨herr, himg, htgt⟩ := apply_mixup_apply s rng images targets lastE hlast hr h1 h2
  refine ⟨roundTo6_bounds rng.unif hu1 hu2, herr, himg, ?_⟩
  intro i p hi hp
  rw [himg]
  exact blendAll_getD_pixel (roundTo6 rng.unif) images sz hsz i p hi hp

/-- The s3 configuration inside the window (epoch 15 in [10, 20]) with
probability 1. -/
def s9 : CollateFn :=
  { base_size := 640, scales := none, stop_epoch := 100,
    ema_restart_decay := 9999/10000, mixup_prob := 1, mixup_epochs := [10, 20],
    gradual_mixup := true, original_mixup_prob := 1, data_vis := false,
    print_info_flag := true, warm_up_epochs := 3, epochVal := some 15 }

/-- C9 witness: for a two-image batch of one pixel each, with the draw 1/2,
pixel 0 of output image 0 is beta times its own pixel plus (1 - beta) times
the pixel of image 1, its cyclic predecessor. -/
theorem c9_blend_pixels_witness :
    ((apply_mixup none s9 ⟨0, 1/2, 0⟩ [[1], [2]] [tA, tB]).images.getD 0 []).getD 0 0
      = roundTo6 (1/2) * 1 + (1 - roundTo6 (1/2)) * 2 := by
  have h := c9_blend_pixels s9 ⟨0, 1/2, 0⟩ [[1], [2]] [tA, tB] 20 1 rfl
    (by norm_num [s9]) (by norm_num [s9, CollateFn.epoch]) (by norm_num [s9, CollateFn.epoch])
    (by norm_num) (by norm_num)
    (by intro img him
        rcases List.mem_cons.mp him with h1 | h1b
        · rw [h1]; rfl
        · rcases List.mem_cons.mp h1b with h2 | h3
          · rw [h2]; rfl
          · simp at h3)
  have h4 := h.2.2.2 0 0 (by norm_num) (by norm_num)
  simpa using h4

/-! ### Claim C10 -/

/-- C10: collate returns target records that alias the callers input target
dictionaries.  In the store model, when mixup applies the returned target list
and the post-call contents of the records held by the caller are the same merged list
(the same dictionary objects, rebound in place with a mixup field added), so
the original annotation data of the caller (mixup absent) is not preserved; the
returned image tensor is the stacked batch blended in place. -/
theorem c10_inplace_aliasing (s : CollateFn) (rng : Rng)
    (items : List (List ℚ × Target)) (lastE : ℤ)
    (hlast : s.mixup_epochs.getLast? = some lastE)
    (hr : rng.rand < s.mixup_prob)
    (h1 : s.mixup_epochs.headD 0 ≤ s.epoch) (h2 : s.epoch < lastE)
    (hscales : s.scales = none) (hne : items ≠ [])
    (hmix : ∀ pr ∈ items, pr.2.mixup = none) :
    (collate none s rng items).result
        = Except.ok (blendAll (roundTo6 rng.unif) (items.map Prod.fst),
            mergeAll (roundTo6 rng.unif) (items.map Prod.snd))
    ∧ (collate none s rng items).callerTargets
        = mergeAll (roundTo6 rng.unif) (items.map Prod.snd)
    ∧ ∀ i, i < items.length →
        ((collate none s rng items).callerTargets.getD i default).mixup
          ≠ ((items.map Prod.snd).getD i default).mixup := by
  obtain ⟨herr, himg, htgt⟩ := apply_mixup_apply s rng (items.map Prod.fst)
    (items.map Prod.snd) lastE hlast hr h1 h2
  have hcol : (collate none s rng items).result
        = Except.ok ((apply_mixup none s rng (items.map Prod.fst)
            (items.map Prod.snd)).images,
          (apply_mixup none s rng (items.map Prod.fst) (items.map Prod.snd)).targets)
      ∧ (collate none s rng items).callerTargets
        = (apply_mixup none s rng (items.map Prod.fst) (items.map Prod.snd)).targets := by
    constructor
    · simp only [collate, if_neg hne, herr, hscales]
    · simp only [collate, if_neg hne, herr, hscales]
  have hmaplen : (items.map Prod.snd).length = items.length := by simp
  refine ⟨by rw [hcol.1, himg, htgt], by rw [hcol.2, htgt], ?_⟩
  intro i hi
  rw [hcol.2, htgt]
  have hsome := mergeAll_mixup_isSome (roundTo6 rng.unif) (items.map Prod.snd) i
    (by rw [hmaplen]; exact hi)
  have hnone : ((items.map Prod.snd).getD i default).mixup = none := by
    rw [List.getD_eq_getElem _ _ (by rw [hmaplen]; exact hi)]
    rw [List.getElem_map]
    exact hmix _ (List.getElem_mem hi)
  intro heq
  rw [heq, hnone] at hsome
  simp at hsome

/-- The s9 configuration: window [10, 20], probability 1, epoch 15, no
multi-scale. -/
def s10 : CollateFn :=
  { base_size := 640, scales := none, stop_epoch := 100,
    ema_restart_decay := 9999/10000, mixup_prob := 1, mixup_epochs := [10, 20],
    gradual_mixup := true, original_mixup_prob := 1, data_vis := false,
    print_info_flag := true, warm_up_epochs := 3, epochVal := some 15 }

/-- C10 witness: on a concrete two-sample batch the returned targets alias
the merged caller records, whose mixup fields differ from the originals. -/
theorem c10_inplace_aliasing_witness :
    (collate none s10 ⟨0, 1/2, 0⟩ [([1], tA), ([2], tB)]).result
        = Except.ok (blendAll (roundTo6 (1/2)) [[1], [2]],
            mergeAll (roundTo6 (1/2)) [tA, tB])
    ∧ (collate none s10 ⟨0, 1/2, 0⟩ [([1], tA), ([2], tB)]).callerTargets
        = mergeAll (roundTo6 (1/2)) [tA, tB]
    ∧ ((collate none s10 ⟨0, 1/2, 0⟩ [([1], tA), ([2], tB)]).callerTargets.getD
          0 default).mixup ≠ (tA).mixup := by
  have h := c10_inplace_aliasing s10 ⟨0, 1/2, 0⟩ [([1], tA), ([2], tB)] 20 rfl
    (by norm_num [s10]) (by norm_num [s10, CollateFn.epoch])
    (by norm_num [s10, CollateFn.epoch]) rfl (by simp)
    (by intro pr hpr
        rcases List.mem_cons.mp hpr with h1 | h1b
        · rw [h1]; rfl
        · rcases List.mem_cons.mp h1b with h2 | h3
          · rw [h2]; rfl
          · simp at h3)
  refine ⟨?_, ?_, ?_⟩
  · have := h.1
    simpa using this
  · have := h.2.1
    simpa using this
  · have := h.2.2 0 (by norm_num)
    simpa using this

/-! ### Claim C2 -/

/-- A collate configuration with multi-scale resize active (scales present,
epoch 0 below stop_epoch 100) and mixup disabled. -/
def s2c : CollateFn :=
  { base_size := 640, scales := some [480, 512], stop_epoch := 100,
    ema_restart_decay := 9999/10000, mixup_prob := 0, mixup_epochs := [0, 0],
    gradual_mixup := true, original_mixup_prob := 0, data_vis := false,
    print_info_flag := true, warm_up_epochs := 3, epochVal := some 0 }

/-- C2 counterexample: a batch whose second target carries a mask tensor,
with multi-scale resize active, is predicted by the claim always to raise the
unsupported-mask-resize error; the code only tests the first target, so this
call returns a batch normally. -/
theorem c2_counterexample :
    (collate none s2c ⟨0, 1/2, 0⟩ [([1], tA), ([2], tMask)]).result
      = Except.ok ([[1], [2]], [tA, tMask]) := rfl

lemma apply_mixup_no_fault_masks (s : CollateFn) (rng : Rng)
    (images : List (List ℚ)) (targets : List Target) (lastE : ℤ)
    (hlast : s.mixup_epochs.getLast? = some lastE) :
    (apply_mixup none s rng images targets).err = none
    ∧ ((apply_mixup none s rng images targets).targets).length = targets.length
    ∧ ∀ i, (((apply_mixup none s rng images targets).targets).getD i default).masks
        = (targets.getD i default).masks := by
  by_cases hguard : rng.rand < s.mixup_prob ∧ s.mixup_epochs.headD 0 ≤ s.epoch
      ∧ s.epoch < lastE
  · obtain ⟨he, _, ht⟩ := apply_mixup_apply s rng images targets lastE hlast
      hguard.1 hguard.2.1 hguard.2.2
    refine ⟨he, ?_, ?_⟩
    · rw [ht]; exact length_mergeAll _ _
    · intro i
      rw [ht]
      exact mergeSteps_masks _ _ _ i
  · obtain ⟨he, _, ht⟩ := apply_mixup_skip s rng images targets lastE hlast hguard
    exact ⟨he, by rw [ht], fun i => by rw [ht]⟩

lemma all_isSome_iff_getD (l : List Target) :
    (l.all (fun t => t.masks.isSome) = true)
      ↔ ∀ i, i < l.length → ((l.getD i default).masks).isSome = true := by
  rw [List.all_eq_true]
  constructor
  · intro h i hi
    rw [List.getD_eq_getElem _ _ hi]
    exact h _ (List.getElem_mem hi)
  · intro h x hx
    obtain ⟨i, hi, rfl⟩ := List.mem_iff_getElem.mp hx
    have hgd := h i hi
    rw [List.getD_eq_getElem _ _ hi] at hgd
    exact hgd

/-- C2 amended: with multi-scale resize active, collate raises exactly when
the FIRST target carries a mask tensor (NotImplementedError when every target
carries one, KeyError when some later target lacks one); when the first
target carries no mask the call returns a batch even if other targets carry
masks. -/
theorem c2_mask_raise_amended (s : CollateFn) (rng : Rng)
    (items : List (List ℚ × Target)) (sc : List ℤ)
    (hne : items ≠ []) (hepochs : s.mixup_epochs ≠ [])
    (hsc : s.scales = some sc) (hstop : s.epoch < s.stop_epoch) :
    ((items.headD default).2.masks.isSome = true →
      ((collate none s rng items).result = Except.error PyErr.notImplemented
        ∨ (collate none s rng items).result = Except.error PyErr.keyError)
      ∧ ((collate none s rng items).result = Except.error PyErr.notImplemented
          ↔ ((items.map Prod.snd).all (fun t => t.masks.isSome)) = true))
    ∧ ((items.headD default).2.masks = none →
        ∃ pr, (collate none s rng items).result = Except.ok pr) := by
  obtain ⟨lastE, hlast⟩ : ∃ l, s.mixup_epochs.getLast? = some l := by
    cases hgl : s.mixup_epochs.getLast? with
    | none => exact absurd (List.getLast?_eq_none_iff.mp hgl) hepochs
    | some l => exact ⟨l, rfl⟩
  obtain ⟨herr, hlen, hmasks⟩ := apply_mixup_no_fault_masks s rng (items.map Prod.fst)
    (items.map Prod.snd) lastE hlast
  have hmaplen : (items.map Prod.snd).length = items.length := by simp
  have hhead : ((apply_mixup none s rng (items.map Prod.fst)
        (items.map Prod.snd)).targets.headD default).masks
      = (items.headD default).2.masks := by
    rw [headD_eq_getD, hmasks 0]
    cases items with
    | nil => exact absurd rfl hne
    | cons x rest => rfl
  have hall : ((apply_mixup none s rng (items.map Prod.fst)
        (items.map Prod.snd)).targets.all (fun t => t.masks.isSome))
      = ((items.map Prod.snd).all (fun t => t.masks.isSome)) := by
    rw [Bool.eq_iff_iff, all_isSome_iff_getD, all_isSome_iff_getD, hlen]
    constructor
    · intro h i hi
      have hgd := h i hi
      rwa [hmasks i] at hgd
    · intro h i hi
      rw [hmasks i]
      exact h i hi
  refine ⟨fun hm => ?_, fun hm0 => ?_⟩
  · have hm2 : ((apply_mixup none s rng (items.map Prod.fst)
        (items.map Prod.snd)).targets.headD default).masks.isSome = true := by
      rw [hhead]; exact hm
    rw [List.headD_eq_head?] at hm2
    by_cases hallb : ((items.map Prod.snd).all (fun t => t.masks.isSome)) = true
    · have hallb2 : ((apply_mixup none s rng (items.map Prod.fst)
          (items.map Prod.snd)).targets.all (fun t => t.masks.isSome)) = true := by
        rw [hall]; exact hallb
      have hres : (collate none s rng items).result = Except.error PyErr.notImplemented := by
        simp [collate, hne, herr, hsc, hstop, hm2, hallb2]
      refine ⟨Or.inl hres, ?_⟩
      constructor
      · intro _; exact hallb
      · intro _; exact hres
    · have hallb2 : ¬ ((apply_mixup none s rng (items.map Prod.fst)
          (items.map Prod.snd)).targets.all (fun t => t.masks.isSome)) = true := by
        rw [hall]; exact hallb
      have hres : (collate none s rng items).result = Except.error PyErr.keyError := by
        simp [collate, hne, herr, hsc, hstop, hm2, hallb2]
      refine ⟨Or.inr hres, ?_⟩
      constructor
      · intro hcontra
        rw [hres] at hcontra
        simp at hcontra
      · intro hcontra
        exact absurd hcontra hallb
  · have hm2 : ¬ (((apply_mixup none s rng (items.map Prod.fst)
        (items.map Prod.snd)).targets.headD default).masks.isSome = true) := by
      rw [hhead, hm0]
      simp
    rw [List.headD_eq_head?] at hm2
    refine ⟨(interpolateTo (sc.getD rng.choiceIdx 0)
        ((apply_mixup none s rng (items.map Prod.fst) (items.map Prod.snd)).images),
      (apply_mixup none s rng (items.map Prod.fst) (items.map Prod.snd)).targets), ?_⟩
    simp [collate, hne, herr, hsc, hstop, hm2]

/-- The s2c configuration with a single scale. -/
def s2w : CollateFn :=
  { base_size := 640, scales := some [480], stop_epoch := 100,
    ema_restart_decay := 9999/10000, mixup_prob := 0, mixup_epochs := [0, 0],
    gradual_mixup := true, original_mixup_prob := 0, data_vis := false,
    print_info_flag := true, warm_up_epochs := 3, epochVal := some 0 }

/-- C2 witness: a single-sample batch whose (first) target carries a mask,
with multi-scale active, raises the unimplemented-mask-resize error. -/
theorem c2_mask_raise_amended_witness :
    (collate none s2w ⟨0, 1/2, 0⟩ [([1], tMask)]).result
      = Except.error PyErr.notImplemented := by
  have h := c2_mask_raise_amended s2w ⟨0, 1/2, 0⟩ [([1], tMask)] [480]
    (by simp) (by simp [s2w]) rfl (by decide)
  exact (h.1 rfl).2.mpr rfl

/-! ### Claim C4 -/

/-- A collate configuration with mixup certain to apply (probability 1,
epoch 5 inside window [0, 10]) and no multi-scale resize. -/
def s4c : CollateFn :=
  { base_size := 640, scales := none, stop_epoch := 100,
    ema_restart_decay := 9999/10000, mixup_prob := 1, mixup_epochs := [0, 10],
    gradual_mixup := true, original_mixup_prob := 1, data_vis := false,
    print_info_flag := true, warm_up_epochs := 3, epochVal := some 5 }

/-- C4 counterexample: a device-memory failure injected at the second
iteration of the target-merge loop is re-raised with exactly one reclaim and
no batch is returned, but the first target dictionary of the caller is already
merged in place (a mixup field is attached) while the second is untouched, so
the caller does observe a half-merged annotation state, refuting the
no-partially-merged-state part of the claim. -/
theorem c4_counterexample :
    (collate (some (FaultSite.mergeStep 1, PyErr.runtimeOom)) s4c ⟨0, 1/2, 0⟩
        [([1], tA), ([2], tB)]).result = Except.error PyErr.runtimeOom
    ∧ (collate (some (FaultSite.mergeStep 1, PyErr.runtimeOom)) s4c ⟨0, 1/2, 0⟩
        [([1], tA), ([2], tB)]).oomReclaims = 1
    ∧ ((collate (some (FaultSite.mergeStep 1, PyErr.runtimeOom)) s4c ⟨0, 1/2, 0⟩
        [([1], tA), ([2], tB)]).callerTargets.getD 0 default).mixup.isSome = true
    ∧ ((collate (some (FaultSite.mergeStep 1, PyErr.runtimeOom)) s4c ⟨0, 1/2, 0⟩
        [([1], tA), ([2], tB)]).callerTargets.getD 1 default).mixup.isSome = false :=
  ⟨rfl, rfl, rfl, rfl⟩

/-- C4 amended: a failure injected at the stacking step or inside the
target-merge loop is always re-raised unchanged, with the on-failure reclaim
performed exactly once when it is the device-memory-exhausted kind and never
otherwise, and no batch is returned; however the records of the caller merged
before the failure point stay merged (in-place mutation), so a half-merged
annotation state can be observed on the merge-loop failure path. -/
theorem c4_oom_amended (s : CollateFn) (rng : Rng)
    (items : List (List ℚ × Target)) (lastE : ℤ) (k : ℕ) (err : PyErr)
    (hlast : s.mixup_epochs.getLast? = some lastE)
    (hr : rng.rand < s.mixup_prob)
    (h1 : s.mixup_epochs.headD 0 ≤ s.epoch) (h2 : s.epoch < lastE)
    (hne : items ≠ []) (hk : k < items.length) :
    ((collate (some (FaultSite.stackSite, err)) s rng items).result = Except.error err
      ∧ (collate (some (FaultSite.stackSite, err)) s rng items).oomReclaims
          = (if err = PyErr.runtimeOom then 1 else 0)
      ∧ (collate (some (FaultSite.stackSite, err)) s rng items).callerTargets
          = items.map Prod.snd)
    ∧ ((collate (some (FaultSite.mergeStep k, err)) s rng items).result
          = Except.error err
      ∧ (collate (some (FaultSite.mergeStep k, err)) s rng items).oomReclaims
          = (if err = PyErr.runtimeOom then 1 else 0)
      ∧ (collate (some (FaultSite.mergeStep k, err)) s rng items).callerTargets
          = mergeSteps (roundTo6 rng.unif) (items.map Prod.snd) (List.range k)) := by
  obtain ⟨hfe, hft⟩ := apply_mixup_fault_merge s rng (items.map Prod.fst)
    (items.map Prod.snd) lastE k err hlast hr h1 h2 (by simpa using hk)
  refine ⟨⟨rfl, rfl, rfl⟩, ⟨?_, ?_, ?_⟩⟩
  · simp [collate, hne, hfe]
  · simp [collate, hne, hfe, oomCount]
  · simp only [collate, if_neg hne, hfe]
    exact hft

/-- C4 witness: a non-memory failure (KeyError) injected in the merge loop
propagates unchanged with zero reclaims. -/
theorem c4_oom_amended_witness :
    (collate (some (FaultSite.mergeStep 1, PyErr.keyError)) s4c ⟨0, 1/2, 0⟩
        [([1], tA), ([2], tB)]).result = Except.error PyErr.keyError
    ∧ (collate (some (FaultSite.mergeStep 1, PyErr.keyError)) s4c ⟨0, 1/2, 0⟩
        [([1], tA), ([2], tB)]).oomReclaims = 0 := by
  have h := c4_oom_amended s4c ⟨0, 1/2, 0⟩ [([1], tA), ([2], tB)] 10 1 PyErr.keyError
    rfl (by norm_num [s4c]) (by decide) (by decide) (by simp) (by norm_num)
  exact ⟨h.2.1, by rw [h.2.2.1]; rfl⟩

/-- A configuration with a single-element mixup window. -/
def s5s : CollateFn :=
  { base_size := 640, scales := none, stop_epoch := 100,
    ema_restart_decay := 9999/10000, mixup_prob := 1/2, mixup_epochs := [7],
    gradual_mixup := true, original_mixup_prob := 1/2, data_vis := false,
    print_info_flag := true, warm_up_epochs := 3, epochVal := some 7 }

/-- C5 witness: with the one-boundary window [7] a concrete apply_mixup call
succeeds and leaves the batch unchanged, and with the empty window it raises
IndexError. -/
theorem c5_disabled_window_amended_witness :
    ((apply_mixup none s5s ⟨0, 1/2, 0⟩ [[1]] [tA]).err = none
      ∧ (apply_mixup none s5s ⟨0, 1/2, 0⟩ [[1]] [tA]).images = [[1]]
      ∧ (apply_mixup none s5s ⟨0, 1/2, 0⟩ [[1]] [tA]).targets = [tA])
    ∧ (apply_mixup none s5e ⟨0, 1/2, 0⟩ [[1]] [tA]).err = some PyErr.indexError := by
  constructor
  · exact (c5_disabled_window_amended s5s 0 7 ⟨0, 1/2, 0⟩ [[1]] [tA]).2.1 rfl
  · exact (c5_disabled_window_amended s5e 0 0 ⟨0, 1/2, 0⟩ [[1]] [tA]).2.2 rfl
